import Mathlib

/-!
# Verification of the GEM_Screening experiment state model

A shallow embedding of the parts of the `gem_screening` package that the
specification's testable properties talk about:

* filename parsing (`gem_screening/utils/identifiers.py`),
* the JSON serializers (`gem_screening/utils/serializers.py`),
* the `Well` / `FieldOfView` entity model and the directory reset performed
  on construction (`gem_screening/well_data/well_classes.py`),
* the rescue assessor (`gem_screening/tasks/rescue_assessment.py`),
* the completion-polling client (`gem_screening/utils/client/client.py`),
* per-object intensity rows (`gem_screening/tasks/data_intensity.py`),
* the illumination loop (`gem_screening/tasks/light_stimulation.py`),
* mask reconciliation (`gem_screening/tasks/mask_utils.py`).

Machine floats are modelled as rationals, file contents as strings, and the
file system as nested association lists keyed by entry name.
-/

namespace GemScreening

/-! ## String helpers mirroring Python's `pathlib` / `str` behaviour

All helpers recurse structurally over `List Char` so that concrete instances
reduce by `rfl` / `decide`. -/

/-- Split a character list at every occurrence of the separator `c`,
like Python's `str.split(c)` (empty segments preserved). -/
def splitChar (c : Char) : List Char → List (List Char)
  | [] => [[]]
  | a :: t =>
    match splitChar c t with
    | [] => [[a]]
    | h :: r => if a = c then [] :: h :: r else (a :: h) :: r

/-- Python's `str.split` lifted back to strings. -/
def splitStr (c : Char) (s : String) : List String :=
  (splitChar c s.toList).map List.asString

/-- The final path component of a POSIX-style path string, i.e. what
Python's `Path(p).name` returns for the paths the pipeline builds. -/
def pathName (p : String) : String :=
  (splitStr '/' p).getLastD ""

/-- Index just after the last occurrence of `c`, or `0` when absent —
Python's `s.rfind(c) + 1`. -/
def lastIndexAfter (c : Char) (l : List Char) : Nat :=
  match l with
  | [] => 0
  | a :: t =>
    let r := lastIndexAfter c t
    if r = 0 then (if a = c then 1 else 0) else r + 1

/-- Python's `Path(p).stem`: the file name with its last suffix removed.
`pathlib` strips the suffix only when the last dot sits strictly inside the
name (`0 < i < len(name) - 1`). -/
def pathStem (p : String) : String :=
  let name := pathName p
  let chars := name.toList
  let i := lastIndexAfter '.' chars - 1
  if 0 < i ∧ i < chars.length - 1 then (chars.take i).asString else name

/-- Python's `int(s)` on a string of ASCII digits. -/
def digitsToNat (s : String) : Nat :=
  s.toList.foldl (fun a c => 10 * a + (c.toNat - 48)) 0

/-- Does `s` end with `suffix`?  (`str.endswith`). -/
def strEndsWith (s suffix : String) : Bool :=
  List.isSuffixOf suffix.toList s.toList

/-- Does `s` start with `pre`?  (`str.startswith`). -/
def strStartsWith (s pre : String) : Bool :=
  List.isPrefixOf pre.toList s.toList

/-! ## Constants from `gem_screening/utils/pipeline_constants.py` -/

def MEASURE_LABEL : String := "measure"
def CONTROL_LABEL : String := "control"
def REFSEG_LABEL : String := "refseg"
def MASK_LABEL : String := "mask"
def STIM_LABEL : String := "stim"

def IMG_FOLDER : String := "images"
def MASK_FOLDER : String := "masks"
def WELL_FOLDER : String := "well"
def CONFIG_FOLDER : String := "config"
def DF_FILENAME : String := "cell_data.csv"
def WELL_OBJ_FILENAME : String := "obj.json"

def IMG_CAT : List String := [MEASURE_LABEL, REFSEG_LABEL, CONTROL_LABEL]
def MASK_CAT : List String := [MASK_LABEL, STIM_LABEL]
def DEFAULT_CATEGORIES : List String := IMG_CAT ++ MASK_CAT

/-! ## `gem_screening/utils/identifiers.py`

`parse_image_filename` strips the path's suffix and matches the stem against
the regex `^(?P<fov_id>[^_]+)_(?P<category>[^_]+)_(?P<instance>\d+)$`.
The regex admits exactly the stems made of three nonempty underscore-free
segments whose last segment is all digits, which is what the split
translation below checks. -/

/-- Result of `parse_image_filename`: `(fov_id, category, instance)`. -/
def parse_image_filename (path : String) : Except String (String × String × Nat) :=
  let name := pathStem path
  match splitStr '_' name with
  | [f, c, i] =>
    if f ≠ "" ∧ c ≠ "" ∧ i ≠ "" ∧ i.toList.all Char.isDigit then
      Except.ok (f, c, digitsToNat i)
    else
      Except.error ("Invalid img filename: " ++ name)
  | _ => Except.error ("Invalid img filename: " ++ name)

/-- The `parse_category_instance` helper from the same module, matching
`^(?P<category>[^_]+)_(?P<instance>\d+)$` against a bare string. -/
def parse_category_instance (filename : String) : Except String (String × Nat) :=
  match splitStr '_' filename with
  | [c, i] =>
    if c ≠ "" ∧ i ≠ "" ∧ i.toList.all Char.isDigit then
      Except.ok (c, digitsToNat i)
    else
      Except.error ("Invalid category-instance format: " ++ filename)
  | _ => Except.error ("Invalid category-instance format: " ++ filename)

/-! ## Entity model (`gem_screening/well_data/well_classes.py`) -/

/-- Decimal rendering of a natural number (fuel-based so it reduces). -/
def natDigits : Nat → Nat → List Char
  | 0, _ => []
  | fuel + 1, n =>
    if n < 10 then [Char.ofNat (48 + n)]
    else natDigits fuel (n / 10) ++ [Char.ofNat (48 + n % 10)]

def natToString (n : Nat) : String :=
  (natDigits (n + 1) n).asString

def joinPath (a b : String) : String := a ++ "/" ++ b

/-- Stage coordinate record from the external `a1_manager` package; only its
`xy` pair is consumed by this pipeline. -/
structure StageCoord where
  x : Int
  y : Int
deriving DecidableEq

def StageCoord.xy (c : StageCoord) : Int × Int := (c.x, c.y)

/-- The `FieldOfView` dataclass: its slots, with `tiff_paths` as an
association list from category to the append-only list of registered
paths (a `defaultdict(list)` in the source). -/
structure FieldOfView where
  well_dir : String
  fov_coord : StageCoord
  instanceNumber : Nat
  contain_positive_cells : Bool
  fov_id : String
  tiff_paths : List (String × List String)
deriving DecidableEq

/-- The `defaultdict(list)` lookup: a missing category behaves as `[]`. -/
def FieldOfView.getPaths (fov : FieldOfView) (category : String) : List String :=
  match fov.tiff_paths.lookup category with
  | some ps => ps
  | none => []

/-- The `well` property: `well_dir.name.split('_')[0]`. -/
def wellNameOfDir (well_dir : String) : String :=
  (splitStr '_' (pathName well_dir)).headD ""

/-- Construction `FieldOfView(well_dir, coord, instance)` followed by `__post_init__`:
`contain_positive_cells` defaults to true, `fov_id = f"{well}P{instance}"`,
`tiff_paths` starts empty. -/
def mkFieldOfView (well_dir : String) (coord : StageCoord) (inst : Nat) : FieldOfView :=
  { well_dir := well_dir
    fov_coord := coord
    instanceNumber := inst
    contain_positive_cells := true
    fov_id := wellNameOfDir well_dir ++ "P" ++ natToString inst
    tiff_paths := [] }

/-- Append `v` to the list stored under `k`, creating the entry when absent
(`defaultdict(list)` append). -/
def appendTiff : List (String × List String) → String → String → List (String × List String)
  | [], k, v => [(k, [v])]
  | (k', vs) :: t, k, v =>
    if k' = k then (k', vs ++ [v]) :: t else (k', vs) :: appendTiff t k v

/-- The method `register_existing_tiff`: parse the category out of the file name and
append the path under it; a malformed name raises (`Except.error`). -/
def register_existing_tiff (fov : FieldOfView) (path : String) :
    Except String FieldOfView :=
  match parse_image_filename path with
  | Except.error e => Except.error e
  | Except.ok (_, category, _) =>
    Except.ok { fov with tiff_paths := appendTiff fov.tiff_paths category path }

/-! Python's `sorted` on `Path` values, for paths inside one directory,
orders by the file-name string (codepoint-wise); modelled by a stable
insertion sort over strings. -/

def charListLe : List Char → List Char → Bool
  | [], _ => true
  | _ :: _, [] => false
  | a :: s, b :: t =>
    if a.val < b.val then true
    else if b.val < a.val then false
    else charListLe s t

def strLe (a b : String) : Bool := charListLe a.toList b.toList

def insertSorted (a : String) : List String → List String
  | [] => [a]
  | b :: t => if strLe a b then a :: b :: t else b :: insertSorted a t

def sortStrings (l : List String) : List String := l.foldr insertSorted []

/-- The method `FieldOfView.load_images(category)`: validate the category against the
fixed enum, then decode every registered path in `sorted(...)` order.
`decode` abstracts `tifffile.imread`. -/
def load_images {α : Type} (decode : String → α) (fov : FieldOfView)
    (category : String) : Except String (List α) :=
  if DEFAULT_CATEGORIES.contains category then
    Except.ok ((sortStrings (fov.getPaths category)).map decode)
  else
    Except.error ("Invalid category " ++ category)

/-- The `Well` dataclass (slots after `__post_init__` has filled the
derived directories). -/
structure Well where
  run_dir : String
  run_id : String
  well_grid : List (Nat × StageCoord)
  well : String
  well_dir : String
  config_dir : String
  img_dir : String
  mask_dir : String
  csv_path : String
  _fov_obj_list : List FieldOfView
deriving DecidableEq

/-- The `positive_fovs` property: FOVs whose `contain_positive_cells` flag
is still true. -/
def Well.positive_fovs (w : Well) : List FieldOfView :=
  w._fov_obj_list.filter (fun fov => fov.contain_positive_cells)

/-! ## JSON serializers (`gem_screening/utils/serializers.py`)

`serializers.py` imports `Well` and `FieldOfView` only under
`typing.TYPE_CHECKING` (and from a module path `gem_screening.well_manager`
that does not exist in the package), so at runtime neither name is bound in
that module's globals.  `CustomJSONEncoder.default` begins with
`isinstance(obj, Well)`, which therefore raises `NameError` on the first
non-primitive value it is handed.  Even with the names bound, the `Well`
branch evaluates `obj.fov_obj_list` on a slotted dataclass whose field is
`_fov_obj_list`, raising `AttributeError`, and its dict literal omits
`run_id` altogether. -/

inductive PyErr where
  | nameError (name : String)
  | attributeError (cls attr : String)
  | fileExistsError (path : String)
deriving DecidableEq

/-- Names bound at runtime in the `serializers` module's global scope:
the real imports only.  `Well` and `FieldOfView` are absent because
their binding is guarded by `if TYPE_CHECKING:`. -/
def serializersRuntimeGlobals : List String :=
  ["asdict", "json", "Path", "StageCoord", "TYPE_CHECKING",
   "CustomJSONEncoder", "custom_decoder"]

/-- Attributes available on a `Well` instance: the dataclass slots plus its
properties and methods. -/
def wellAttrNames : List String :=
  ["run_dir", "run_id", "well_grid", "well", "well_dir", "config_dir",
   "img_dir", "mask_dir", "csv_path", "_fov_obj_list",
   "positive_fovs", "well_obj_path", "well_id",
   "to_json", "from_json", "from_dict",
   "_setup_dir", "_reset_folder", "_unpack_fov"]

/-- Attributes available on a `FieldOfView` instance. -/
def fovAttrNames : List String :=
  ["well_dir", "fov_coord", "instance", "contain_positive_cells", "fov_id",
   "tiff_paths", "well", "img_dir", "mask_dir",
   "_bild_img_path", "register_img_file", "register_existing_tiff",
   "load_images", "from_dict"]

/-- Attribute fetches performed, left to right, by the dict literal in the
`Well` branch of `CustomJSONEncoder.default`. -/
def wellEncoderAttrSeq : List String :=
  ["run_dir", "well_grid", "well", "fov_obj_list",
   "well_dir", "config_dir", "img_dir", "mask_dir", "csv_path"]

/-- Attribute fetches in the `FieldOfView` branch of
`CustomJSONEncoder.default`. -/
def fovEncoderAttrSeq : List String :=
  ["fov_coord", "well", "instance", "contain_positive_cell", "fov_ID",
   "images_path", "masks_path"]

/-- Evaluate `obj.<attr>` for each attribute in order, stopping at the first
one the object does not define (Python raises `AttributeError` there). -/
def fetchAttrs (cls : String) (available : List String) :
    List String → Except PyErr (List String)
  | [] => Except.ok []
  | a :: t =>
    if available.contains a then
      match fetchAttrs cls available t with
      | Except.error e => Except.error e
      | Except.ok r => Except.ok (a :: r)
    else Except.error (PyErr.attributeError cls a)

/-- Outcome of `CustomJSONEncoder.default` on a `Well` value.  The first
statement is `isinstance(obj, Well)`; `Well` is unbound at runtime, so this
is `NameError` before any attribute is read.  The hypothetical continuation
(were `Well` bound) is the attribute-fetch sequence of the dict literal. -/
def encoderDefaultWellOutcome : Except PyErr (List String) :=
  if serializersRuntimeGlobals.contains "Well" then
    fetchAttrs "Well" wellAttrNames wellEncoderAttrSeq
  else Except.error (PyErr.nameError "Well")

/-- The encoder `CustomJSONEncoder.default` applied to a `Well` object (the entry point
of `Well.to_json`'s `json.dump`). -/
def encoderDefaultOnWell (_w : Well) : Except PyErr (List String) :=
  encoderDefaultWellOutcome

/-- The dict-literal attribute fetches of the `Well` branch alone, assuming
the `isinstance` checks had worked: first failure is `fov_obj_list`, which
is not an attribute of the slotted dataclass (the field is
`_fov_obj_list`). -/
def encodeWellDictAttrs : Except PyErr (List String) :=
  fetchAttrs "Well" wellAttrNames wellEncoderAttrSeq

/-- Same for the `FieldOfView` branch: first failure is
`contain_positive_cell` (the field is `contain_positive_cells`). -/
def encodeFovDictAttrs : Except PyErr (List String) :=
  fetchAttrs "FieldOfView" fovAttrNames fovEncoderAttrSeq

/-! ## File-system model and `Well.__post_init__` / `Well._reset_folder`

Directories are association lists from entry name to entry; an entry is a
file (with content) or a directory.  The model covers the children of the
run directory; the well folder `{well}_well` sits among them. -/

inductive FsTree where
  | file (content : String)
  | dir (children : List (String × FsTree))

/-- First entry with the given name, like a file-system lookup. -/
def lookupChild : List (String × FsTree) → String → Option FsTree
  | [], _ => none
  | (m, t) :: r, n => if m = n then some t else lookupChild r n

/-- Replace the entry with the given name (first occurrence), or append a
new entry at the end. -/
def setChild : List (String × FsTree) → String → FsTree → List (String × FsTree)
  | [], n, t => [(n, t)]
  | (m, u) :: r, n, t => if m = n then (n, t) :: r else (m, u) :: setChild r n t

/-- The four well-owned entry names removed by `Well._reset_folder`. -/
def ownedNames (well : String) : List String :=
  [well ++ "_" ++ CONFIG_FOLDER,
   well ++ "_" ++ IMG_FOLDER,
   well ++ "_" ++ MASK_FOLDER,
   well ++ "_" ++ DF_FILENAME]

/-- The method `Well._reset_folder`: delete (rmtree/unlink) every child whose name is
one of the four owned names; leave everything else alone. -/
def resetFolder (well : String) (children : List (String × FsTree)) :
    List (String × FsTree) :=
  children.filter (fun e => ¬ (ownedNames well).contains e.1)

/-- Python's `Path.mkdir(parents=True, exist_ok=True)`: create the directory when
absent, keep it when present, raise `FileExistsError` when a non-directory
already has that name. -/
def mkdirExistOk (children : List (String × FsTree)) (name : String) :
    Except PyErr (List (String × FsTree)) :=
  match lookupChild children name with
  | none => Except.ok (setChild children name (FsTree.dir []))
  | some (FsTree.dir _) => Except.ok children
  | some (FsTree.file _) => Except.error (PyErr.fileExistsError name)

def wellFolderName (well : String) : String := well ++ "_" ++ WELL_FOLDER
def configDirName (well : String) : String := well ++ "_" ++ CONFIG_FOLDER
def imgDirName (well : String) : String := well ++ "_" ++ IMG_FOLDER
def maskDirName (well : String) : String := well ++ "_" ++ MASK_FOLDER
def wellObjName (well : String) : String := well ++ "_" ++ WELL_OBJ_FILENAME

/-- File-system effects of `Well.__post_init__` on the children of the well
directory, after `_setup_dir(run_dir, WELL_FOLDER)` has ensured the well
directory exists: `_reset_folder`, then fresh `config`/`images`/`masks`
directories, then `to_json`, whose `open(..., 'w')` creates an empty
`{well}_obj.json` inside the config directory before `json.dump` raises
(see `encoderDefaultWellOutcome`). -/
def wellPostInitChildren (well : String) (ch : List (String × FsTree)) :
    List (String × FsTree) :=
  let ch1 := resetFolder well ch
  let ch2 := setChild ch1 (configDirName well) (FsTree.dir [])
  let ch3 := setChild ch2 (imgDirName well) (FsTree.dir [])
  let ch4 := setChild ch3 (maskDirName well) (FsTree.dir [])
  let cfg :=
    match lookupChild ch4 (configDirName well) with
    | some (FsTree.dir cc) =>
      FsTree.dir (setChild cc (wellObjName well) (FsTree.file ""))
    | some t => t
    | none => FsTree.dir [(wellObjName well, FsTree.file "")]
  setChild ch4 (configDirName well) cfg

/-- The error with which `Well.to_json` (hence `Well.__post_init__`)
terminates: `json.dump` calls `CustomJSONEncoder.default` on the `Well`,
which raises `NameError: Well`. -/
def wellToJsonErr : Option PyErr :=
  match encoderDefaultWellOutcome with
  | Except.error e => some e
  | Except.ok _ => none

/-- The constructor `Well.__post_init__` as a transformer of the run directory's children:
returns the resulting state together with the exception (if any) the
constructor raises.  Every run either stops at `mkdir` (a file occupies the
well folder's name) or performs the directory work and then raises inside
`to_json`. -/
def wellConstructFs (well : String) (rc : List (String × FsTree)) :
    List (String × FsTree) × Option PyErr :=
  match mkdirExistOk rc (wellFolderName well) with
  | Except.error e => (rc, some e)
  | Except.ok rc' =>
    let ch :=
      match lookupChild rc' (wellFolderName well) with
      | some (FsTree.dir c) => c
      | _ => []
    (setChild rc' (wellFolderName well)
      (FsTree.dir (wellPostInitChildren well ch)), wellToJsonErr)

/-! ## Rescue assessor (`gem_screening/tasks/rescue_assessment.py`)

`_count_actual_images_in_directory` works from the set of file names in the
images directory (a missing directory behaves exactly like an empty one, so
the model takes the file-name set as input) and the set of expected FOV ids
(`{fov.fov_id for fov in well.positive_fovs}`; `_count_expected_images` is
its cardinality). -/

/-- The scan `img_dir.glob(pattern)` for the four fixed patterns `*_<cat>_<n>.tif`:
a name matches when it ends with the literal suffix; a leading `*` in glob
does not match hidden files (leading dot). -/
def globMatch (suffix f : String) : Bool :=
  strEndsWith f suffix && !(strStartsWith f ".")

def globTif (files : Finset String) (suffix : String) : Finset String :=
  files.filter (fun f => globMatch suffix f = true)

/-- The helper `extract_fov_id`: `file_path.stem.split('_')[0]`. -/
def extractFovId (f : String) : String :=
  (splitStr '_' (pathStem f)).headD ""

/-- FOV ids that have a `<cat>` file for round `r`. -/
def categoryRoundFovs (files : Finset String) (cat r : String) : Finset String :=
  (globTif files ("_" ++ cat ++ "_" ++ r ++ ".tif")).image extractFovId

/-- Set `round_1_complete_fovs = refseg_1_fovs ∩ measure_1_fovs`. -/
def round1CompleteFovs (files : Finset String) : Finset String :=
  categoryRoundFovs files REFSEG_LABEL "1" ∩ categoryRoundFovs files MEASURE_LABEL "1"

/-- Set `round_2_complete_fovs = refseg_2_fovs ∩ measure_2_fovs`. -/
def round2CompleteFovs (files : Finset String) : Finset String :=
  categoryRoundFovs files REFSEG_LABEL "2" ∩ categoryRoundFovs files MEASURE_LABEL "2"

/-- Set `complete_r1_r2_pairs`: FOVs with complete pairs in both rounds. -/
def completeR1R2Pairs (files : Finset String) : Finset String :=
  round1CompleteFovs files ∩ round2CompleteFovs files

/-- Flag `has_round_2_files`: any `*_refseg_2.tif` or `*_measure_2.tif` file. -/
def hasRound2Files (files : Finset String) : Prop :=
  0 < (globTif files ("_" ++ REFSEG_LABEL ++ "_2.tif")).card ∨
  0 < (globTif files ("_" ++ MEASURE_LABEL ++ "_2.tif")).card

instance (files : Finset String) : Decidable (hasRound2Files files) := by
  unfold hasRound2Files; infer_instance

inductive RescueStatus where
  | continue_round1
  | ready_for_round2
  | continue_round2
  | analyze_complete_pairs_only
  | complete
deriving DecidableEq

/-- The status determination of `_assess_image_scanning_state`:
`round_i_complete` compares the number of complete pairs with the number of
expected FOVs. -/
def assessStatus (expected files : Finset String) : RescueStatus :=
  let expectedCount := expected.card
  let round1Complete := (round1CompleteFovs files).card = expectedCount
  let round2Complete := (round2CompleteFovs files).card = expectedCount
  if ¬ hasRound2Files files then
    if round1Complete then RescueStatus.ready_for_round2
    else RescueStatus.continue_round1
  else
    if round1Complete then
      if round2Complete then RescueStatus.complete
      else RescueStatus.continue_round2
    else RescueStatus.analyze_complete_pairs_only

/-- The entry point `assess_rescue`: the action plus, in the
`analyze_complete_pairs_only` case, the `fov_list` detail (the complete
2x2 pairs); other branches carry no FOV list. -/
def assess_rescue (expected files : Finset String) : RescueStatus × Finset String :=
  let status := assessStatus expected files
  (status,
   if status = RescueStatus.analyze_complete_pairs_only then completeR1R2Pairs files
   else ∅)

/-! Claim-side reading of the rescue table (C2 as stated): a FOV's pair in
round `r` is complete when its primary (`measure`) file is present and,
only if the reference channel is enabled, its `refseg` file too; a round is
complete when every expected FOV has a complete pair. -/

def specPairComplete (refsegEnabled : Bool) (files : Finset String)
    (r fov : String) : Prop :=
  (fov ++ "_" ++ MEASURE_LABEL ++ "_" ++ r ++ ".tif") ∈ files ∧
  (refsegEnabled = true → (fov ++ "_" ++ REFSEG_LABEL ++ "_" ++ r ++ ".tif") ∈ files)

instance (b : Bool) (files : Finset String) (r fov : String) :
    Decidable (specPairComplete b files r fov) := by
  unfold specPairComplete; infer_instance

def specRoundComplete (refsegEnabled : Bool) (expected files : Finset String)
    (r : String) : Prop :=
  ∀ fov ∈ expected, specPairComplete refsegEnabled files r fov

instance (b : Bool) (expected files : Finset String) (r : String) :
    Decidable (specRoundComplete b expected files r) := by
  unfold specRoundComplete; infer_instance

/-- Claim C2 as stated: the five-row table, quantified over the
reference-channel setting, the expected ids and the on-disk files. -/
def rescueClaimAsStated : Prop :=
  ∀ (refsegEnabled : Bool) (expected files : Finset String),
    (¬ specRoundComplete refsegEnabled expected files "1" ∧ ¬ hasRound2Files files →
      assessStatus expected files = RescueStatus.continue_round1) ∧
    (specRoundComplete refsegEnabled expected files "1" ∧ ¬ hasRound2Files files →
      assessStatus expected files = RescueStatus.ready_for_round2) ∧
    (specRoundComplete refsegEnabled expected files "1" ∧ hasRound2Files files ∧
        ¬ specRoundComplete refsegEnabled expected files "2" →
      assessStatus expected files = RescueStatus.continue_round2) ∧
    (hasRound2Files files ∧ ¬ specRoundComplete refsegEnabled expected files "1" →
      assess_rescue expected files =
        (RescueStatus.analyze_complete_pairs_only,
         expected.filter (fun fov => specPairComplete refsegEnabled files "1" fov ∧
           specPairComplete refsegEnabled files "2" fov))) ∧
    (specRoundComplete refsegEnabled expected files "1" ∧
        specRoundComplete refsegEnabled expected files "2" →
      assessStatus expected files = RescueStatus.complete)

/-- The amended table, written from the corrected reading: complete pairs
always require both the `measure` and the `refseg` file of the round
(regardless of any reference-channel setting); a round counts as complete
when the NUMBER of its complete pairs equals the number of expected FOVs;
`complete` additionally requires round-2 evidence; the analyze branch lists
the ids complete in both rounds (whether expected or not). -/
def rescueTableSpec (expected files : Finset String) : RescueStatus × Finset String :=
  let pairs1 := round1CompleteFovs files
  let pairs2 := round2CompleteFovs files
  let r1Full := pairs1.card = expected.card
  let r2Full := pairs2.card = expected.card
  if hasRound2Files files then
    if r1Full then
      if r2Full then (RescueStatus.complete, ∅)
      else (RescueStatus.continue_round2, ∅)
    else (RescueStatus.analyze_complete_pairs_only, pairs1 ∩ pairs2)
  else
    if r1Full then (RescueStatus.ready_for_round2, ∅)
    else (RescueStatus.continue_round1, ∅)

/-! ## Completion polling (`gem_screening/utils/client/client.py`)

`wait_for_completion` is modelled against a response stream
`resp : ℕ → PollStatus` (`resp 0` is the bootstrap request, `resp k` the
request after the `k`-th sleep), with the idealized timing in which
requests are instantaneous and each sleep lasts exactly `poll`; after `m`
sleeps the elapsed time is `m * poll`.  The loop checks
`elapsed > timeout` before each sleep. -/

inductive PollStatus where
  | processing (remaining : Int)
  | finished
deriving DecidableEq

inductive WaitResult where
  | ok (polls : Nat)
  | timedOut
  | fuelExhausted
deriving DecidableEq

/-- The polling loop: `m` sleeps have happened; check the timeout, sleep,
re-query.  The fuel argument only forces termination; with the fuel used by
`wait_for_completion` it never runs out. -/
def waitLoop (resp : Nat → PollStatus) (poll timeout : Nat) :
    Nat → Nat → WaitResult
  | _, 0 => WaitResult.fuelExhausted
  | m, fuel + 1 =>
    if timeout < m * poll then WaitResult.timedOut
    else
      match resp (m + 1) with
      | PollStatus.finished => WaitResult.ok (m + 1)
      | PollStatus.processing _ => waitLoop resp poll timeout (m + 1) fuel

/-- The barrier `wait_for_completion(well_id, poll_interval, timeout)` with a set
timeout: an immediate return when the bootstrap response is already
finished, otherwise the check/sleep/query loop. -/
def wait_for_completion (resp : Nat → PollStatus) (poll timeout : Nat) : WaitResult :=
  match resp 0 with
  | PollStatus.finished => WaitResult.ok 0
  | PollStatus.processing _ => waitLoop resp poll timeout 0 (timeout / poll + 2)

/-- Amended behaviour of the barrier, written from the corrected claim:
return `.ok 0` at once when the bootstrap response is finished; otherwise
return `.ok k` for the first finished response among polls
`1 .. timeout/poll + 1` (the last of which happens after the timeout has
already elapsed but before the next check), and time out iff none of those
polls is finished. -/
def waitSpec (resp : Nat → PollStatus) (poll timeout : Nat) : WaitResult :=
  match resp 0 with
  | PollStatus.finished => WaitResult.ok 0
  | PollStatus.processing _ =>
    match (List.range' 1 (timeout / poll + 1)).find?
        (fun k => resp k = PollStatus.finished) with
    | some k => WaitResult.ok k
    | none => WaitResult.timedOut

/-- Claim C3 as stated: immediate return on a first finished response, and
a timeout raised if and only if the configured timeout elapses before a
finished response is observed (a response at poll `k` is observed at
elapsed time `k * poll`). -/
def waitClaimAsStated : Prop :=
  ∀ (resp : Nat → PollStatus) (poll timeout : Nat), 0 < poll →
    (resp 0 = PollStatus.finished →
      wait_for_completion resp poll timeout = WaitResult.ok 0) ∧
    (wait_for_completion resp poll timeout = WaitResult.timedOut ↔
      ∀ k, k * poll ≤ timeout → resp k ≠ PollStatus.finished)

/-! ## Intensity rows (`gem_screening/tasks/data_intensity.py`)

Per-object row processing in `_create_regionprops`: the true-cell
threshold is applied to the after-stimulation mean intensity first
(line `df[AFTER_STIM] = df[AFTER_STIM].where(df[AFTER_STIM] >=
true_cell_threshold, 0)`), and only afterwards is the ratio computed with
`df[AFTER_STIM] / df[BEFORE_STIM].replace(0, np.nan)`; a NaN ratio is
modelled as `none`. -/

/-- Thresholding `after.where(after >= threshold, 0)` for one row. -/
def applyTrueCellThreshold (threshold after : ℚ) : ℚ :=
  if threshold ≤ after then after else 0

/-- Division `after / before.replace(0, nan)` for one row: `none` is NaN. -/
def afterOverBefore (before after : ℚ) : Option ℚ :=
  if before = 0 then none else some (after / before)

/-- One row of `_create_regionprops` after the merge: returns the stored
after-stimulation value and the ratio column. -/
def processRow (threshold before after : ℚ) : ℚ × Option ℚ :=
  let after' := applyTrueCellThreshold threshold after
  (after', afterOverBefore before after')

/-! ## Illumination (`gem_screening/tasks/light_stimulation.py`)

`_illuminate_cells` walks `well.positive_fovs` in order; per FOV it loads
the `stim` images, raises `ValueError` when the list is empty, and
otherwise stimulates with the last mask (`dmd_masks[-1]`).  The model
returns the trace of `(fov_id, mask)` stimulations performed before
either finishing or raising. -/

def illumErrMsg (fov : FieldOfView) : String :=
  "No stimulation masks found for FOV " ++ fov.fov_id ++
  " (fov.contain_positive_cells=" ++
  (if fov.contain_positive_cells then "True" else "False") ++
  ")Please run create_stim_masks before illuminating."

def illuminateLoop : List FieldOfView → List (String × String) × Option String
  | [] => ([], none)
  | fov :: rest =>
    match load_images id fov STIM_LABEL with
    | Except.error e => ([], some e)
    | Except.ok masks =>
      match masks.getLast? with
      | none => ([], some (illumErrMsg fov))
      | some m =>
        let (tr, e) := illuminateLoop rest
        ((fov.fov_id, m) :: tr, e)

def illuminate_cells (w : Well) : List (String × String) × Option String :=
  illuminateLoop w.positive_fovs

/-! ## Mask reconciliation (`gem_screening/tasks/mask_utils.py`) -/

inductive AssignEffect where
  | scanMaskDir
  | persistWell
deriving DecidableEq

/-- The files grouped under a FOV id by the scanning loop: parseable names
whose category is `mask` and whose FOV id matches (order preserved). -/
def masksForFov (maskFiles : List String) (fovId : String) : List String :=
  maskFiles.filter (fun p =>
    match parse_image_filename p with
    | Except.ok (f, c, _) => f = fovId ∧ c = MASK_LABEL
    | Except.error _ => False)

/-- Reconciliation `assign_masks_to_fovs(well)`, with the `mask_dir.glob("*.tif")` result
passed in as `maskFiles`.  Returns the updated well, the effects performed
(directory scan, well persistence), and the exception `well.to_json` would
raise at the end of the full path. -/
def assign_masks_to_fovs (w : Well) (maskFiles : List String) :
    Well × List AssignEffect × Option PyErr :=
  let fovMap := w.positive_fovs
  if fovMap = [] then (w, [], none)
  else if fovMap.all (fun fov => !(fov.getPaths MASK_LABEL).isEmpty) then
    (w, [], none)
  else
    let fovs' := w._fov_obj_list.map (fun fov =>
      if fov.contain_positive_cells then
        (masksForFov maskFiles fov.fov_id).foldl
          (fun f p =>
            match register_existing_tiff f p with
            | Except.ok f' => f'
            | Except.error _ => f) fov
      else fov)
    ({ w with _fov_obj_list := fovs' },
     [AssignEffect.scanMaskDir, AssignEffect.persistWell], wellToJsonErr)

/-! ## Concrete example values -/

def exampleCoord : StageCoord := ⟨0, 0⟩

def exampleFov : FieldOfView := mkFieldOfView "/runs/A1_well" exampleCoord 1

def exampleWell : Well :=
  { run_dir := "/runs"
    run_id := "host-1234"
    well_grid := [(1, exampleCoord)]
    well := "A1"
    well_dir := "/runs/A1_well"
    config_dir := "/runs/A1_well/A1_config"
    img_dir := "/runs/A1_well/A1_images"
    mask_dir := "/runs/A1_well/A1_masks"
    csv_path := "/runs/A1_well/A1_cell_data.csv"
    _fov_obj_list := [exampleFov] }

/-- Claim C5 as stated: for a valid category, `load` returns the decoded
images of every registered path in registration order, and fails when the
category has zero registered entries. -/
def loadClaimAsStated : Prop :=
  ∀ (fov : FieldOfView) (cat : String), cat ∈ DEFAULT_CATEGORIES →
    (fov.getPaths cat ≠ [] →
      load_images id fov cat = Except.ok (fov.getPaths cat)) ∧
    (fov.getPaths cat = [] →
      ∃ e, load_images id fov cat = Except.error e)

/-- Claim C6 as stated: the example parses, and a missing instance, an
unknown category, and a wrong extension are each rejected. -/
def parseClaimAsStated : Prop :=
  parse_image_filename "A1P3_measure_2.tif" = Except.ok ("A1P3", "measure", 2) ∧
  (∃ e, parse_image_filename "A1P3_measure.tif" = Except.error e) ∧
  (∃ e, parse_image_filename "A1P3_banana_2.tif" = Except.error e) ∧
  (∃ e, parse_image_filename "A1P3_measure_2.png" = Except.error e)

/-- A response stream that stays `processing` for the first two requests
and is `finished` from the third on. -/
def lateFinishResp : Nat → PollStatus :=
  fun k => if k < 2 then PollStatus.processing (2 - k) else PollStatus.finished

/-- A FOV with two `measure` paths registered in reverse name order. -/
def fovUnordered : FieldOfView :=
  { exampleFov with tiff_paths :=
      [("measure", ["/runs/A1_well/images/A1P1_measure_2.tif",
                    "/runs/A1_well/images/A1P1_measure_1.tif"])] }

/-- A FOV holding one registered `stim` mask. -/
def fovWithStim : FieldOfView :=
  { exampleFov with tiff_paths := [("stim", ["/runs/A1_well/masks/A1P1_stim_1.tif"])] }

/-- An eligible FOV with no registered `stim` mask. -/
def fovNoStim : FieldOfView := mkFieldOfView "/runs/A1_well" exampleCoord 2

/-- A well whose first eligible FOV has a stim mask and whose second has
none. -/
def wellStimExample : Well :=
  { exampleWell with _fov_obj_list := [fovWithStim, fovNoStim] }

/-- A FOV whose contains-target flag has been cleared. -/
def fovNegative : FieldOfView := { exampleFov with contain_positive_cells := false }

/-- A well with zero FOVs whose contains-target flag is true. -/
def wellNoPositive : Well := { exampleWell with _fov_obj_list := [fovNegative] }

/-- A run directory holding a stale well folder with leftovers from a prior
attempt plus entries the well does not own. -/
def staleRunChildren : List (String × FsTree) :=
  [("junk.txt", FsTree.file "x"),
   ("A1_well", FsTree.dir
     [("A1_images", FsTree.dir [("A1P1_measure_1.tif", FsTree.file "img")]),
      ("A1_cell_data.csv", FsTree.file "csv"),
      ("keepme.txt", FsTree.file "y")])]

/-!
# Theorems
-/

/-- C1: serialization is broken, not lossless.  `json.dump` on any `Well`
raises `NameError` at `isinstance(obj, Well)` because `serializers.py`
never binds `Well` at runtime; even with the names bound, the encoder's
`Well` branch would raise `AttributeError` at `obj.fov_obj_list` (the slot
is `_fov_obj_list`) and its `FieldOfView` branch at
`obj.contain_positive_cell`; and the encoded `Well` dict omits `run_id`, so
`deserialize(serialize(well)) == well` cannot hold on any field set that
includes `run_id`. -/
theorem C1_serialization_crashes :
    encoderDefaultOnWell exampleWell = Except.error (PyErr.nameError "Well") ∧
    encodeWellDictAttrs = Except.error (PyErr.attributeError "Well" "fov_obj_list") ∧
    encodeFovDictAttrs =
      Except.error (PyErr.attributeError "FieldOfView" "contain_positive_cell") ∧
    wellEncoderAttrSeq.contains "run_id" = false :=
  ⟨rfl, rfl, rfl, rfl⟩

/-- C4: the true-cell threshold is applied to the after-stimulation value
before the ratio is computed; a below-threshold after value becomes `0`; a
zero before-stimulation value makes the ratio undefined (`none`), and a
thresholded-away after value over a nonzero before gives ratio `0`. -/
theorem C4_threshold_before_ratio :
    ∀ threshold before after : ℚ,
      processRow threshold before after =
        (applyTrueCellThreshold threshold after,
         afterOverBefore before (applyTrueCellThreshold threshold after)) ∧
      (after < threshold → (processRow threshold before after).1 = 0) ∧
      (before = 0 → (processRow threshold before after).2 = none) ∧
      (after < threshold → before ≠ 0 →
        (processRow threshold before after).2 = some 0) := by
  intro t b a
  refine ⟨rfl, ?_, ?_, ?_⟩
  · intro h
    simp [processRow, applyTrueCellThreshold, not_le.mpr h]
  · intro h
    simp [processRow, afterOverBefore, h]
  · intro h hb
    simp [processRow, applyTrueCellThreshold, afterOverBefore, not_le.mpr h, hb]

/-- Witness for C4 at the spec's concrete rows: before 10 / after 4 with
threshold 5 stores 0 and ratio 0; before 0 / after 5 has an undefined
ratio. -/
theorem C4_threshold_before_ratio_witness :
    (processRow 5 10 4).1 = 0 ∧ (processRow 5 0 5).2 = none ∧
    (processRow 5 10 4).2 = some 0 :=
  ⟨(C4_threshold_before_ratio 5 10 4).2.1 (by norm_num),
   (C4_threshold_before_ratio 5 0 5).2.2.1 rfl,
   (C4_threshold_before_ratio 5 10 4).2.2.2 (by norm_num) (by norm_num)⟩

/-- C5 counterexample: `load_images` on a valid category with zero
registered entries returns `Except.ok []` instead of failing with a
NotFound condition, so the claim as stated is false. -/
theorem C5_counterexample : ¬ loadClaimAsStated := by
  intro h
  obtain ⟨e, he⟩ := (h exampleFov "measure" (by decide)).2 rfl
  rw [show load_images id exampleFov "measure" = Except.ok [] from rfl] at he
  exact Except.noConfusion he

/-- C5 amended: for a category in the fixed enum, `load_images` returns the
decoded images of the registered paths in `sorted(...)` (name) order — an
empty category yields an empty list, not an error — and a category outside
the enum raises `ValueError`. -/
theorem C5_amended_load :
    ∀ {α : Type} (decode : String → α) (fov : FieldOfView) (cat : String),
      (cat ∈ DEFAULT_CATEGORIES →
        load_images decode fov cat =
          Except.ok ((sortStrings (fov.getPaths cat)).map decode)) ∧
      (cat ∉ DEFAULT_CATEGORIES →
        load_images decode fov cat = Except.error ("Invalid category " ++ cat)) := by
  intro α d fov cat
  constructor
  · intro h
    have hc : DEFAULT_CATEGORIES.contains cat = true := List.elem_eq_true_of_mem h
    simp only [load_images, hc, if_true]
  · intro h
    have hc : ¬ DEFAULT_CATEGORIES.contains cat = true :=
      fun hc => h (List.mem_of_elem_eq_true hc)
    simp only [load_images, if_neg hc]

/-- Witness for C5 amended: the two registered measure paths come back in
sorted name order (not registration order), and an invalid category
errors. -/
theorem C5_amended_load_witness :
    load_images id fovUnordered "measure" =
      Except.ok ["/runs/A1_well/images/A1P1_measure_1.tif",
                 "/runs/A1_well/images/A1P1_measure_2.tif"] ∧
    load_images id exampleFov "bogus" = Except.error "Invalid category bogus" :=
  ⟨((C5_amended_load id fovUnordered "measure").1 (by decide)).trans rfl,
   (C5_amended_load id exampleFov "bogus").2 (by decide)⟩

/-- C6 counterexample: the parser does not reject an unknown category
(`A1P3_banana_2.tif` parses fine), so the claim as stated is false. -/
theorem C6_counterexample : ¬ parseClaimAsStated := by
  intro h
  obtain ⟨-, -, ⟨e, he⟩, -⟩ := h
  rw [show parse_image_filename "A1P3_banana_2.tif" =
        Except.ok ("A1P3", "banana", 2) from rfl] at he
  exact Except.noConfusion he

/-- C6 amended: the parser maps `A1P3_measure_2.tif` to
`("A1P3", "measure", 2)` and rejects a missing instance, but validates
neither the category nor the extension — an unknown category and a wrong
extension both parse (category membership in the fixed enum is checked
elsewhere, e.g. by `_bild_img_path` and `load_images`). -/
theorem C6_amended_parse :
    parse_image_filename "A1P3_measure_2.tif" = Except.ok ("A1P3", "measure", 2) ∧
    parse_image_filename "A1P3_measure.tif" =
      Except.error "Invalid img filename: A1P3_measure" ∧
    parse_image_filename "A1P3_banana_2.tif" = Except.ok ("A1P3", "banana", 2) ∧
    parse_image_filename "A1P3_measure_2.png" = Except.ok ("A1P3", "measure", 2) ∧
    DEFAULT_CATEGORIES.contains "banana" = false :=
  ⟨rfl, rfl, rfl, rfl, rfl⟩

/-- C10: with zero positive FOVs, `assign_masks_to_fovs` returns before
scanning the masks directory: the well is unchanged, no effect is
performed, and the well is not re-persisted. -/
theorem C10_no_positive_fovs_noop :
    ∀ (w : Well) (maskFiles : List String), w.positive_fovs = [] →
      assign_masks_to_fovs w maskFiles = (w, [], none) := by
  intro w files h
  simp [assign_masks_to_fovs, h]

/-- Witness for C10: a well whose single FOV has a cleared contains-target
flag, with a matching mask file on disk, is left untouched. -/
theorem C10_no_positive_fovs_noop_witness :
    assign_masks_to_fovs wellNoPositive ["A1P1_mask_1.tif"] =
      (wellNoPositive, [], none) :=
  C10_no_positive_fovs_noop wellNoPositive ["A1P1_mask_1.tif"] rfl

/-- C2 counterexample: the claim as stated is false.  With the reference
channel disabled, one expected FOV and only its round-1 measure file on
disk, the claimed table demands `ready_for_round2`, but the assessor —
which always intersects refseg and measure ids — returns
`continue_round1`.  Two further concrete evaluations pin down what the
amended claim must say: completeness is count-based (files of an
unexpected FOV can stand in for an expected one), and with zero expected
FOVs and no files both rounds are vacuously complete yet the status is
`ready_for_round2`, not `complete`. -/
theorem C2_counterexample :
    ¬ rescueClaimAsStated ∧
    assessStatus {"A1P1"} {"B1P1_measure_1.tif", "B1P1_refseg_1.tif"} =
      RescueStatus.ready_for_round2 ∧
    assessStatus (∅ : Finset String) ∅ = RescueStatus.ready_for_round2 := by
  refine ⟨?_, by decide, by decide⟩
  intro h
  have h2 := (h false {"A1P1"} {"A1P1_measure_1.tif"}).2.1 ⟨by decide, by decide⟩
  exact absurd h2 (by decide)

/-- C2 amended: the assessor realizes the five-row table with the corrected
reading — a complete pair always requires both the `refseg` and the
`measure` file of the round (the `do_refseg` setting is ignored); a round
is complete when the NUMBER of complete pairs equals the number of
expected FOVs; `complete` additionally requires round-2 evidence; and the
analyze branch lists exactly the ids with complete pairs in both rounds. -/
theorem C2_amended_rescue_table :
    ∀ expected files : Finset String,
      assess_rescue expected files = rescueTableSpec expected files := by
  intro e f
  by_cases h2 : hasRound2Files f
  · by_cases hr1 : (round1CompleteFovs f).card = e.card
    · by_cases hr2 : (round2CompleteFovs f).card = e.card
      · simp [assess_rescue, assessStatus, rescueTableSpec, h2, hr1, hr2]
      · simp [assess_rescue, assessStatus, rescueTableSpec, h2, hr1, hr2]
    · simp [assess_rescue, assessStatus, rescueTableSpec, h2, hr1, completeR1R2Pairs]
  · by_cases hr1 : (round1CompleteFovs f).card = e.card
    · simp [assess_rescue, assessStatus, rescueTableSpec, h2, hr1]
    · simp [assess_rescue, assessStatus, rescueTableSpec, h2, hr1]

/-- The pre-sleep timeout check `elapsed > timeout` after `m` sleeps
triggers exactly when `m` has passed `timeout / poll`. -/
lemma timeout_check_iff (poll timeout m : Nat) (hp : 0 < poll) :
    timeout < m * poll ↔ timeout / poll + 1 ≤ m := by
  constructor
  · intro h
    have h1 : timeout / poll * poll ≤ timeout := Nat.div_mul_le_self timeout poll
    have h3 : timeout / poll < m := by
      by_contra hc
      push_neg at hc
      have h2 : m * poll ≤ timeout / poll * poll := Nat.mul_le_mul_right poll hc
      omega
    omega
  · intro h
    have hdm := Nat.div_add_mod timeout poll
    have hmod := Nat.mod_lt timeout hp
    have hsplit : (timeout / poll + 1) * poll = poll * (timeout / poll) + poll := by
      ring
    have h2 : (timeout / poll + 1) * poll ≤ m * poll := Nat.mul_le_mul_right poll h
    omega

/-- With enough fuel, the polling loop started after `m` sleeps returns
`.ok k` for the first finished response among polls `m+1 .. timeout/poll+1`
and `.timedOut` when there is none. -/
lemma waitLoop_eq_find (resp : Nat → PollStatus) (poll timeout : Nat) (hp : 0 < poll) :
    ∀ fuel m, m ≤ timeout / poll + 1 → timeout / poll + 1 < m + fuel →
      waitLoop resp poll timeout m fuel =
        (match (List.range' (m + 1) (timeout / poll + 1 - m)).find?
            (fun k => resp k = PollStatus.finished) with
         | some k => WaitResult.ok k
         | none => WaitResult.timedOut) := by
  intro fuel
  induction fuel with
  | zero => intro m hm hf; omega
  | succ f ih =>
    intro m hm hf
    by_cases hto : timeout < m * poll
    · have hM : timeout / poll + 1 ≤ m := (timeout_check_iff poll timeout m hp).mp hto
      have hz : timeout / poll + 1 - m = 0 := by omega
      simp only [waitLoop, if_pos hto, hz, List.range', List.find?]
    · have hmM : m < timeout / poll + 1 := by
        rcases Nat.lt_or_ge m (timeout / poll + 1) with h1 | h1
        · exact h1
        · exact absurd ((timeout_check_iff poll timeout m hp).mpr h1) hto
      have hcount : timeout / poll + 1 - m = (timeout / poll + 1 - (m + 1)) + 1 := by
        omega
      rw [hcount]
      simp only [waitLoop, if_neg hto, List.range'_succ, List.find?]
      cases hr : resp (m + 1) with
      | finished => simp [hr]
      | processing rem =>
        simp only [hr]
        exact ih (m + 1) (by omega) (by omega)

/-- C3 counterexample: with poll interval 2 and timeout 3, responses
`processing, processing, finished` make the barrier return normally
(`.ok 2`) even though the `finished` response is observed at elapsed time
`2 * 2 = 4`, after the 3-second timeout has elapsed — the pre-sleep check
passed at elapsed time 2, so no timeout is raised; hence the
raises-iff-timeout-elapses-first claim is false as stated. -/
theorem C3_counterexample :
    ¬ waitClaimAsStated ∧
    wait_for_completion lateFinishResp 2 3 = WaitResult.ok 2 ∧
    3 < 2 * 2 := by
  refine ⟨?_, rfl, by norm_num⟩
  intro h
  have h2 := ((h lateFinishResp 2 3 (by norm_num)).2).mpr ?_
  · rw [show wait_for_completion lateFinishResp 2 3 = WaitResult.ok 2 from rfl] at h2
    exact WaitResult.noConfusion h2
  · intro k hk
    have hk1 : k ≤ 1 := by omega
    interval_cases k <;> simp [lateFinishResp]

/-- C3 amended: with a positive poll interval, the barrier returns `.ok 0`
immediately (no sleep) when the first response is already finished;
otherwise it returns `.ok k` at the first finished response among polls
`1 .. timeout/poll + 1` — the last such poll happens after the timeout has
elapsed but before the next check, and still returns normally — and it
raises the timeout condition if and only if all of those polls are still
`processing`. -/
theorem C3_amended_wait :
    ∀ (resp : Nat → PollStatus) (poll timeout : Nat), 0 < poll →
      wait_for_completion resp poll timeout = waitSpec resp poll timeout := by
  intro resp poll timeout hp
  unfold wait_for_completion waitSpec
  cases h0 : resp 0 with
  | finished => rfl
  | processing rem =>
    have hlt : timeout / poll + 1 < 0 + (timeout / poll + 2) := by
      rw [Nat.zero_add]
      exact Nat.lt_succ_self _
    rw [waitLoop_eq_find resp poll timeout hp (timeout / poll + 2) 0
      (Nat.zero_le _) hlt]
    norm_num

/-- Witness for C3 amended: a stream that never finishes, poll interval 1,
timeout 0 — the barrier times out, matching the spec function. -/
theorem C3_amended_wait_witness :
    wait_for_completion (fun _ => PollStatus.processing 5) 1 0 =
      waitSpec (fun _ => PollStatus.processing 5) 1 0 ∧
    wait_for_completion (fun _ => PollStatus.processing 5) 1 0 =
      WaitResult.timedOut :=
  ⟨C3_amended_wait (fun _ => PollStatus.processing 5) 1 0 (by norm_num), rfl⟩

lemma insertSorted_ne_nil (a : String) (l : List String) : insertSorted a l ≠ [] := by
  cases l with
  | nil => simp [insertSorted]
  | cons b t =>
    simp only [insertSorted]
    split <;> simp

lemma sortStrings_ne_nil {l : List String} (h : l ≠ []) : sortStrings l ≠ [] := by
  cases l with
  | nil => exact absurd rfl h
  | cons a t => simpa [sortStrings] using insertSorted_ne_nil a (sortStrings t)

lemma load_images_stim (fov : FieldOfView) :
    load_images id fov STIM_LABEL =
      Except.ok (sortStrings (fov.getPaths STIM_LABEL)) := by
  rw [show load_images id fov STIM_LABEL =
      Except.ok (List.map id (sortStrings (fov.getPaths STIM_LABEL))) from rfl,
    List.map_id]

/-- C8: when the illumination loop reaches an eligible FOV (contains-target
flag still true, hence in `positive_fovs`) that has no registered `stim`
mask, it raises a `ValueError` naming that FOV; only the FOVs before it
were stimulated, and the well stops there. -/
theorem C8_missing_stim_mask_fatal :
    ∀ (w : Well) (pre post : List FieldOfView) (fov : FieldOfView),
      w.positive_fovs = pre ++ fov :: post →
      (∀ g ∈ pre, g.getPaths STIM_LABEL ≠ []) →
      fov.getPaths STIM_LABEL = [] →
      ∃ tr, illuminate_cells w = (tr, some (illumErrMsg fov)) ∧
        tr.map Prod.fst = pre.map FieldOfView.fov_id := by
  intro w pre post fov hsplit hpre hfov
  unfold illuminate_cells
  rw [hsplit]
  clear hsplit
  induction pre with
  | nil =>
    refine ⟨[], ?_, rfl⟩
    simp [illuminateLoop, load_images_stim fov, hfov, sortStrings]
  | cons g pre' ih =>
    have hg : g.getPaths STIM_LABEL ≠ [] := hpre g (List.mem_cons_self g pre')
    obtain ⟨tr, htr, hmap⟩ := ih (fun x hx => hpre x (List.mem_cons_of_mem g hx))
    have hsome : (sortStrings (g.getPaths STIM_LABEL)).getLast?.isSome := by
      cases hl : (sortStrings (g.getPaths STIM_LABEL)).getLast? with
      | none =>
        exact absurd (List.getLast?_eq_none_iff.mp hl) (sortStrings_ne_nil hg)
      | some m => rfl
    obtain ⟨m, hm⟩ := Option.isSome_iff_exists.mp hsome
    refine ⟨(g.fov_id, m) :: tr, ?_, by simpa using hmap⟩
    simp only [List.cons_append, illuminateLoop, load_images_stim g, hm]
    rw [show List.append pre' (fov :: post) = pre' ++ fov :: post from rfl, htr]

/-- Witness for C8: a well with two eligible FOVs, the first holding a stim
mask and the second none — the loop stimulates the first FOV only and
raises the diagnostic naming the second. -/
theorem C8_missing_stim_mask_fatal_witness :
    ∃ tr, illuminate_cells wellStimExample = (tr, some (illumErrMsg fovNoStim)) ∧
      tr.map Prod.fst = [fovWithStim].map FieldOfView.fov_id := by
  refine C8_missing_stim_mask_fatal wellStimExample [fovWithStim] [] fovNoStim rfl
    ?_ rfl
  intro g hg
  have hgs : g = fovWithStim := by simpa using hg
  subst hgs
  decide

/-! Association-list lemmas for the file-system model. -/

lemma contains_eq_true_of_mem {a : String} {l : List String} (h : a ∈ l) :
    l.contains a = true :=
  List.elem_eq_true_of_mem h

lemma mem_of_contains_eq_true {a : String} {l : List String}
    (h : l.contains a = true) : a ∈ l :=
  List.mem_of_elem_eq_true h

lemma lookupChild_setChild_self (l : List (String × FsTree)) (n : String)
    (t : FsTree) : lookupChild (setChild l n t) n = some t := by
  induction l with
  | nil => simp [setChild, lookupChild]
  | cons e r ih =>
    obtain ⟨m, u⟩ := e
    by_cases h : m = n
    · subst h; simp [setChild, lookupChild]
    · simp [setChild, lookupChild, h, ih]

lemma setChild_setChild (l : List (String × FsTree)) (n : String) (t t' : FsTree) :
    setChild (setChild l n t) n t' = setChild l n t' := by
  induction l with
  | nil => simp [setChild]
  | cons e r ih =>
    obtain ⟨m, u⟩ := e
    by_cases h : m = n
    · subst h; simp [setChild]
    · simp [setChild, h, ih]

lemma lookupChild_setChild_ne (l : List (String × FsTree)) (n m : String)
    (t : FsTree) (h : n ≠ m) :
    lookupChild (setChild l n t) m = lookupChild l m := by
  induction l with
  | nil => simp [setChild, lookupChild, h]
  | cons e r ih =>
    obtain ⟨k, u⟩ := e
    by_cases hk : k = n
    · subst hk; simp [setChild, lookupChild, h]
    · simp [setChild, lookupChild, hk, ih]

lemma setChild_eq_append {l : List (String × FsTree)} {n : String} {t : FsTree}
    (h : ∀ e ∈ l, e.1 ≠ n) : setChild l n t = l ++ [(n, t)] := by
  induction l with
  | nil => rfl
  | cons e r ih =>
    obtain ⟨m, u⟩ := e
    have hm : m ≠ n := h (m, u) (List.mem_cons_self _ _)
    simp only [setChild, if_neg hm, List.cons_append, List.cons.injEq, true_and]
    exact ih (fun e he => h e (List.mem_cons_of_mem _ he))

lemma setChild_append_of_ne (l₁ l₂ : List (String × FsTree)) (n : String)
    (t : FsTree) (h : ∀ e ∈ l₁, e.1 ≠ n) :
    setChild (l₁ ++ l₂) n t = l₁ ++ setChild l₂ n t := by
  induction l₁ with
  | nil => rfl
  | cons e r ih =>
    obtain ⟨m, u⟩ := e
    have hm : m ≠ n := h (m, u) (List.mem_cons_self _ _)
    simp only [List.cons_append, setChild, if_neg hm, List.cons.injEq, true_and]
    exact ih (fun e he => h e (List.mem_cons_of_mem _ he))

lemma lookupChild_append (l₁ l₂ : List (String × FsTree)) (n : String) :
    lookupChild (l₁ ++ l₂) n =
      (match lookupChild l₁ n with
       | some t => some t
       | none => lookupChild l₂ n) := by
  induction l₁ with
  | nil => simp [lookupChild]
  | cons e r ih =>
    obtain ⟨m, u⟩ := e
    by_cases h : m = n
    · subst h; simp [lookupChild]
    · simp [lookupChild, h, ih]

lemma lookupChild_of_forall_ne {l : List (String × FsTree)} {n : String}
    (h : ∀ e ∈ l, e.1 ≠ n) : lookupChild l n = none := by
  induction l with
  | nil => rfl
  | cons e r ih =>
    obtain ⟨m, u⟩ := e
    have hm : m ≠ n := h (m, u) (List.mem_cons_self _ _)
    simp only [lookupChild, if_neg hm]
    exact ih (fun e he => h e (List.mem_cons_of_mem _ he))

/-! `_reset_folder` lemmas. -/

lemma configDirName_mem_owned (well : String) :
    configDirName well ∈ ownedNames well := by
  unfold ownedNames configDirName
  exact List.mem_cons_self _ _

lemma imgDirName_mem_owned (well : String) :
    imgDirName well ∈ ownedNames well := by
  unfold ownedNames imgDirName
  simp

lemma maskDirName_mem_owned (well : String) :
    maskDirName well ∈ ownedNames well := by
  unfold ownedNames maskDirName
  simp

lemma mem_resetFolder_name_ne {well : String} {ch : List (String × FsTree)}
    {e : String × FsTree} (he : e ∈ resetFolder well ch) {n : String}
    (hn : n ∈ ownedNames well) : e.1 ≠ n := by
  intro h
  have h2 := (List.mem_filter.mp he).2
  rw [h, contains_eq_true_of_mem hn] at h2
  simp at h2

lemma resetFolder_idem (well : String) (ch : List (String × FsTree)) :
    resetFolder well (resetFolder well ch) = resetFolder well ch := by
  unfold resetFolder
  rw [List.filter_filter]
  congr 1
  funext e
  exact Bool.and_self _

lemma resetFolder_append (well : String) (l₁ l₂ : List (String × FsTree)) :
    resetFolder well (l₁ ++ l₂) = resetFolder well l₁ ++ resetFolder well l₂ := by
  simp [resetFolder]

lemma lookupChild_resetFolder (well : String) (ch : List (String × FsTree))
    (m : String) (hm : m ∉ ownedNames well) :
    lookupChild (resetFolder well ch) m = lookupChild ch m := by
  induction ch with
  | nil => rfl
  | cons e r ih =>
    obtain ⟨k, t⟩ := e
    by_cases hk : k = m
    · subst hk
      simp [resetFolder, List.filter_cons, lookupChild, hm]
    · by_cases ho : k ∈ ownedNames well
      · simpa [resetFolder, List.filter_cons, ho, lookupChild, hk] using ih
      · simpa [resetFolder, List.filter_cons, ho, lookupChild, hk] using ih

/-- A suffix after the `{well}_` prefix determines the entry name. -/
lemma wellSuffix_ne {well a b : String} (h : a ≠ b) :
    well ++ "_" ++ a ≠ well ++ "_" ++ b := by
  intro he
  apply h
  have h2 := congrArg String.data he
  simp only [String.data_append, List.append_assoc] at h2
  exact String.ext (List.append_cancel_left (List.append_cancel_left h2))

/-- The shape of the well directory after `__post_init__`: the reset
survivors followed by the three freshly created directories, with the
empty `obj.json` written into the config directory. -/
lemma wellPostInitChildren_eq (well : String) (ch : List (String × FsTree)) :
    wellPostInitChildren well ch =
      resetFolder well ch ++
        [(configDirName well, FsTree.dir [(wellObjName well, FsTree.file "")]),
         (imgDirName well, FsTree.dir []),
         (maskDirName well, FsTree.dir [])] := by
  have hcfg : ∀ e ∈ resetFolder well ch, e.1 ≠ configDirName well :=
    fun e he => mem_resetFolder_name_ne he (configDirName_mem_owned well)
  have himg : ∀ e ∈ resetFolder well ch, e.1 ≠ imgDirName well :=
    fun e he => mem_resetFolder_name_ne he (imgDirName_mem_owned well)
  have hmsk : ∀ e ∈ resetFolder well ch, e.1 ≠ maskDirName well :=
    fun e he => mem_resetFolder_name_ne he (maskDirName_mem_owned well)
  have hci : configDirName well ≠ imgDirName well := wellSuffix_ne (by decide)
  have hcm : configDirName well ≠ maskDirName well := wellSuffix_ne (by decide)
  have him : imgDirName well ≠ maskDirName well := wellSuffix_ne (by decide)
  simp only [wellPostInitChildren]
  rw [setChild_eq_append hcfg]
  rw [setChild_append_of_ne _ _ _ _ himg]
  rw [show setChild [(configDirName well, FsTree.dir [])] (imgDirName well)
        (FsTree.dir []) =
      [(configDirName well, FsTree.dir []), (imgDirName well, FsTree.dir [])] by
    simp [setChild, hci]]
  rw [setChild_append_of_ne _ _ _ _ hmsk]
  rw [show setChild [(configDirName well, FsTree.dir []),
        (imgDirName well, FsTree.dir [])] (maskDirName well) (FsTree.dir []) =
      [(configDirName well, FsTree.dir []), (imgDirName well, FsTree.dir []),
       (maskDirName well, FsTree.dir [])] by
    simp [setChild, hcm, him]]
  rw [lookupChild_append, lookupChild_of_forall_ne hcfg]
  simp only [lookupChild, if_pos rfl]
  rw [setChild_append_of_ne _ _ _ _ hcfg]
  simp [setChild]

/-- Owned entries are wiped again by a second reset. -/
lemma resetFolder_fresh_entries (well : String) :
    resetFolder well
      [(configDirName well, FsTree.dir [(wellObjName well, FsTree.file "")]),
       (imgDirName well, FsTree.dir []),
       (maskDirName well, FsTree.dir [])] = [] := by
  have h1 := contains_eq_true_of_mem (configDirName_mem_owned well)
  have h2 := contains_eq_true_of_mem (imgDirName_mem_owned well)
  have h3 := contains_eq_true_of_mem (maskDirName_mem_owned well)
  simp [resetFolder, List.filter_cons, configDirName_mem_owned,
    imgDirName_mem_owned, maskDirName_mem_owned]

/-- The directory work of `__post_init__` is idempotent. -/
lemma wellPostInitChildren_idem (well : String) (ch : List (String × FsTree)) :
    wellPostInitChildren well (wellPostInitChildren well ch) =
      wellPostInitChildren well ch := by
  rw [wellPostInitChildren_eq well ch,
    wellPostInitChildren_eq well (resetFolder well ch ++ _),
    resetFolder_append, resetFolder_idem, resetFolder_fresh_entries,
    List.append_nil, ← wellPostInitChildren_eq well ch,
    wellPostInitChildren_eq well ch]

/-- C7: constructing a `Well` twice in a row against the same root
directory is idempotent — the second construction reproduces exactly the
state (and outcome) of the first — and, whenever no plain file occupies the
well folder's name, the resulting state holds fresh empty `images` and
`masks` directories and a `config` directory containing only the
just-written (empty) `obj.json`: no artifact of the first construction
survives the second. -/
theorem C7_construction_idempotent :
    ∀ (well : String) (rc : List (String × FsTree)),
      wellConstructFs well (wellConstructFs well rc).1 = wellConstructFs well rc ∧
      ((∀ c, lookupChild rc (wellFolderName well) ≠ some (FsTree.file c)) →
        ∃ ch, lookupChild (wellConstructFs well rc).1 (wellFolderName well) =
            some (FsTree.dir ch) ∧
          lookupChild ch (imgDirName well) = some (FsTree.dir []) ∧
          lookupChild ch (maskDirName well) = some (FsTree.dir []) ∧
          lookupChild ch (configDirName well) =
            some (FsTree.dir [(wellObjName well, FsTree.file "")])) := by
  intro well rc
  have hlookups : ∀ ch : List (String × FsTree),
      lookupChild (wellPostInitChildren well ch) (imgDirName well) =
          some (FsTree.dir []) ∧
      lookupChild (wellPostInitChildren well ch) (maskDirName well) =
          some (FsTree.dir []) ∧
      lookupChild (wellPostInitChildren well ch) (configDirName well) =
          some (FsTree.dir [(wellObjName well, FsTree.file "")]) := by
    intro ch
    have hcfg : ∀ e ∈ resetFolder well ch, e.1 ≠ configDirName well :=
      fun e he => mem_resetFolder_name_ne he (configDirName_mem_owned well)
    have himg : ∀ e ∈ resetFolder well ch, e.1 ≠ imgDirName well :=
      fun e he => mem_resetFolder_name_ne he (imgDirName_mem_owned well)
    have hmsk : ∀ e ∈ resetFolder well ch, e.1 ≠ maskDirName well :=
      fun e he => mem_resetFolder_name_ne he (maskDirName_mem_owned well)
    have hci : configDirName well ≠ imgDirName well := wellSuffix_ne (by decide)
    have hcm : configDirName well ≠ maskDirName well := wellSuffix_ne (by decide)
    have him : imgDirName well ≠ maskDirName well := wellSuffix_ne (by decide)
    refine ⟨?_, ?_, ?_⟩
    · rw [wellPostInitChildren_eq, lookupChild_append,
        lookupChild_of_forall_ne himg]
      simp [lookupChild, hci]
    · rw [wellPostInitChildren_eq, lookupChild_append,
        lookupChild_of_forall_ne hmsk]
      simp [lookupChild, hcm, him]
    · rw [wellPostInitChildren_eq, lookupChild_append,
        lookupChild_of_forall_ne hcfg]
      simp [lookupChild]
  cases hrc : lookupChild rc (wellFolderName well) with
  | none =>
    constructor
    · simp only [wellConstructFs, mkdirExistOk, hrc, lookupChild_setChild_self,
        setChild_setChild, wellPostInitChildren_idem]
    · intro _
      refine ⟨wellPostInitChildren well [], ?_, (hlookups []).1,
        (hlookups []).2.1, (hlookups []).2.2⟩
      simp only [wellConstructFs, mkdirExistOk, hrc, lookupChild_setChild_self,
        setChild_setChild]
  | some t =>
    cases t with
    | file c =>
      constructor
      · simp only [wellConstructFs, mkdirExistOk, hrc]
      · intro h
        exact absurd rfl (h c)
    | dir ch =>
      constructor
      · simp only [wellConstructFs, mkdirExistOk, hrc, lookupChild_setChild_self,
          setChild_setChild, wellPostInitChildren_idem]
      · intro _
        refine ⟨wellPostInitChildren well ch, ?_, (hlookups ch).1,
          (hlookups ch).2.1, (hlookups ch).2.2⟩
        simp only [wellConstructFs, mkdirExistOk, hrc, lookupChild_setChild_self]

/-- Witness for C7 at a run directory with stale artifacts: a stale images
directory and measurement CSV are purged, the foreign entries stay, and a
second construction reproduces the state of the first exactly. -/
theorem C7_construction_idempotent_witness :
    wellConstructFs "A1" (wellConstructFs "A1" staleRunChildren).1 =
      wellConstructFs "A1" staleRunChildren ∧
    ∃ ch, lookupChild (wellConstructFs "A1" staleRunChildren).1
        (wellFolderName "A1") = some (FsTree.dir ch) ∧
      lookupChild ch (imgDirName "A1") = some (FsTree.dir []) ∧
      lookupChild ch (maskDirName "A1") = some (FsTree.dir []) ∧
      lookupChild ch (configDirName "A1") =
        some (FsTree.dir [(wellObjName "A1", FsTree.file "")]) := by
  refine ⟨(C7_construction_idempotent "A1" staleRunChildren).1,
    (C7_construction_idempotent "A1" staleRunChildren).2 ?_⟩
  intro c h
  rw [show lookupChild staleRunChildren (wellFolderName "A1") =
      some (FsTree.dir
        [("A1_images", FsTree.dir [("A1P1_measure_1.tif", FsTree.file "img")]),
         ("A1_cell_data.csv", FsTree.file "csv"),
         ("keepme.txt", FsTree.file "y")]) from rfl] at h
  injection h with h2
  exact FsTree.noConfusion h2

/-- C9: the reset performed during `Well` construction removes only the
four well-owned entries: at the run level only the well folder's entry is
touched, and inside the well folder every entry whose name is not one of
the four owned names is exactly what it was before construction. -/
theorem C9_reset_touches_only_owned :
    ∀ (well : String) (rc ch : List (String × FsTree)),
      lookupChild rc (wellFolderName well) = some (FsTree.dir ch) →
      (∀ n, n ≠ wellFolderName well →
        lookupChild (wellConstructFs well rc).1 n = lookupChild rc n) ∧
      ∃ ch', lookupChild (wellConstructFs well rc).1 (wellFolderName well) =
          some (FsTree.dir ch') ∧
        ∀ m, m ∉ ownedNames well → lookupChild ch' m = lookupChild ch m := by
  intro well rc ch hrc
  constructor
  · intro n hn
    simp only [wellConstructFs, mkdirExistOk, hrc]
    exact lookupChild_setChild_ne rc (wellFolderName well) n _ (Ne.symm hn)
  · refine ⟨wellPostInitChildren well ch, ?_, ?_⟩
    · simp only [wellConstructFs, mkdirExistOk, hrc, lookupChild_setChild_self]
    · intro m hm
      have howned : ∀ e ∈
          [(configDirName well, FsTree.dir [(wellObjName well, FsTree.file "")]),
           (imgDirName well, FsTree.dir []),
           (maskDirName well, FsTree.dir [])], e.1 ≠ m := by
        intro e he hem
        simp only [List.mem_cons, List.mem_singleton] at he
        rcases he with h | h | h | h
        · rw [h] at hem; exact hm (hem ▸ configDirName_mem_owned well)
        · rw [h] at hem; exact hm (hem ▸ imgDirName_mem_owned well)
        · rw [h] at hem; exact hm (hem ▸ maskDirName_mem_owned well)
        · exact absurd h (by simp)
      rw [wellPostInitChildren_eq, lookupChild_append,
        lookupChild_resetFolder well ch m hm]
      cases hc : lookupChild ch m with
      | none => simp [lookupChild_of_forall_ne howned]
      | some t => rfl

/-- Witness for C9: in the stale run directory, the foreign run-level entry
`junk.txt` and the in-well entry `keepme.txt` survive construction
unchanged. -/
theorem C9_reset_touches_only_owned_witness :
    lookupChild (wellConstructFs "A1" staleRunChildren).1 "junk.txt" =
      lookupChild staleRunChildren "junk.txt" ∧
    ∃ ch', lookupChild (wellConstructFs "A1" staleRunChildren).1
        (wellFolderName "A1") = some (FsTree.dir ch') ∧
      lookupChild ch' "keepme.txt" = some (FsTree.file "y") := by
  have h := C9_reset_touches_only_owned "A1" staleRunChildren
    [("A1_images", FsTree.dir [("A1P1_measure_1.tif", FsTree.file "img")]),
     ("A1_cell_data.csv", FsTree.file "csv"),
     ("keepme.txt", FsTree.file "y")] rfl
  refine ⟨h.1 "junk.txt" (by decide), ?_⟩
  obtain ⟨ch', hch, hkeep⟩ := h.2
  exact ⟨ch', hch, (hkeep "keepme.txt" (by decide)).trans rfl⟩

end GemScreening
